import Mathlib

/-!
Verification of the TMapp encrypted note vault.

We shallowly embed the authentication and encrypted-storage core of the
repository (src/core/encryption.py, src/core/auth.py, src/core/auth_manager.py,
src/core/note_manager.py, src/controllers/note_controller.py,
src/controllers/notebook_controller.py) and settle the frozen claims about it.

Bytes are modelled as `List Nat`, Python strings as Lean `String`, Python
`Optional[...]` values as `Option`, and raising code as `Except`-valued
functions.  Randomness (`secrets.token_bytes`) is passed in explicitly as
function parameters.  Cryptographic primitives from third-party libraries
(Argon2id, PBKDF2, AES-GCM) are modelled as ideal primitives, faithful to the
spec's contracts for KeyDerivation (deterministic, collision-free) and
AeadCipher (tag verifies exactly on honestly sealed envelopes).
-/

namespace TMapp

/-! ### Injective encodings used by the ideal cryptographic primitives -/

/-- Injective encoding of a list of naturals into one natural, via Cantor
pairing. -/
def encodeList : List Nat → Nat
  | [] => 0
  | a :: t => Nat.pair a (encodeList t) + 1

theorem encodeList_injective : Function.Injective encodeList := by
  intro l₁
  induction l₁ with
  | nil =>
    intro l₂ h
    cases l₂ with
    | nil => rfl
    | cons b s => simp [encodeList] at h
  | cons a t ih =>
    intro l₂ h
    cases l₂ with
    | nil => simp [encodeList] at h
    | cons b s =>
      simp only [encodeList, Nat.add_right_cancel_iff] at h
      obtain ⟨h1, h2⟩ := Nat.pair_eq_pair.mp h
      exact h1 ▸ congrArg (a :: ·) (ih h2)

/-- The code points of a Python string (`str.encode` modelled injectively). -/
def strBytes (s : String) : List Nat := s.data.map Char.toNat

theorem char_toNat_injective : Function.Injective Char.toNat := by
  intro a b h
  have h2 : Char.ofNat a.toNat = Char.ofNat b.toNat := by rw [h]
  rwa [Char.ofNat_toNat, Char.ofNat_toNat] at h2

theorem strBytes_injective : Function.Injective strBytes := by
  intro s t h
  have h2 := List.map_injective_iff.mpr char_toNat_injective h
  cases s; cases t
  exact congrArg String.mk h2

/-- Inverse of `strBytes`: decoding back to a string, failing on invalid
code points (`bytes.decode` can raise). -/
def decodeBytes (bs : List Nat) : Option String :=
  if bs.all (fun b => b < 55296 || (57343 < b && b < 1114112)) then
    some ⟨bs.map Char.ofNat⟩
  else none

theorem decodeBytes_strBytes (s : String) : decodeBytes (strBytes s) = some s := by
  have hval : ∀ c : Char, (Char.toNat c < 55296 ||
      (57343 < Char.toNat c && Char.toNat c < 1114112)) = true := by
    intro c
    have hv : Nat.isValidChar c.toNat := c.valid
    simp only [Bool.or_eq_true, Bool.and_eq_true, decide_eq_true_eq]
    unfold Nat.isValidChar at hv
    omega
  simp only [decodeBytes, strBytes]
  rw [if_pos]
  · simp only [List.map_map, Option.some.injEq]
    have hid : (Char.ofNat ∘ Char.toNat) = id := funext Char.ofNat_toNat
    cases s with
    | mk data => simp [hid]
  · simp only [List.all_eq_true]
    intro b hb
    obtain ⟨c, _, rfl⟩ := List.mem_map.mp hb
    exact hval c

/-! ### EncryptionService (src/core/encryption.py) -/

def SALT_SIZE : Nat := 16
def NONCE_SIZE : Nat := 12
def TAG_SIZE : Nat := 16

/-- Modelled from the spec: KeyDerivation (§4.1), the library Argon2id KDF.
Deterministic in (password, salt) and collision-free (ideal KDF); produces a
32-byte key. -/
def argon2idKey (password : String) (salt : List Nat) : List Nat :=
  Nat.pair (encodeList (strBytes password)) (encodeList salt) :: List.replicate 31 0

/-- Modelled from the spec: the AeadCipher authentication tag (§4.2, §8
"Tamper detection"), the library AES-GCM tag.  Ideal 16-byte MAC:
collision-free across distinct (key, nonce, plaintext) triples. -/
def gcmTagBytes (key nonce pt : List Nat) : List Nat :=
  Nat.pair (encodeList key) (Nat.pair (encodeList nonce) (encodeList pt)) ::
    List.replicate 15 0

/-- Modelled from the spec: AeadCipher.seal (§4.2), the library
`AESGCM.encrypt`: ciphertext with the 16-byte authentication tag appended. -/
def aesgcmEncrypt (key nonce pt : List Nat) : List Nat :=
  pt ++ gcmTagBytes key nonce pt

/-- Modelled from the spec: AeadCipher.open (§4.2), the library
`AESGCM.decrypt`: verify the trailing 16-byte tag; `none` models raising
`InvalidTag`. -/
def aesgcmDecrypt (key nonce ct : List Nat) : Option (List Nat) :=
  if ct.length < TAG_SIZE then none
  else
    let body := ct.take (ct.length - TAG_SIZE)
    let tag := ct.drop (ct.length - TAG_SIZE)
    if tag = gcmTagBytes key nonce body then some body else none

/-- The `ValueError`s raised across `EncryptionService`, one constructor per
raise site (messages in the source). -/
inductive EncError where
  /-- "Plaintext cannot be empty" -/
  | emptyPlaintext
  /-- "Password cannot be empty" (`derive_key`) -/
  | emptyPassword
  /-- "Salt must be 16 bytes" (`derive_key`) -/
  | badSaltLength
  /-- "No password or cached key available" (`encrypt`) -/
  | noKeyAvailable
  /-- "Encrypted data cannot be empty" (`decrypt`) -/
  | emptyData
  /-- "Invalid encrypted data: too short" (`decrypt`) -/
  | dataTooShort
  /-- "Decryption failed: No password or matching cached key" (`decrypt`) -/
  | noMatchingKey
  /-- "Decryption failed: incorrect password or corrupted data"
  (`decrypt`, from `InvalidTag`) -/
  | invalidTag
  /-- decode failure of the recovered plaintext bytes, wrapped into
  "Decryption failed: ..." -/
  | decodeFailed
  deriving DecidableEq

/-- The mutable state of `EncryptionService`: the cached key and salt. -/
structure EncState where
  cachedKey : Option (List Nat) := none
  cachedSalt : Option (List Nat) := none
  deriving DecidableEq

/-- Python truthiness of an `Optional[bytes]` value (`None` and `b""` are
falsy). -/
def bytesTruthy : Option (List Nat) → Bool
  | none => false
  | some b => !b.isEmpty

/-- Python truthiness of an `Optional[str]` value (`None` and `""` are
falsy). -/
def strTruthy : Option String → Bool
  | none => false
  | some p => p != ""

/-- `EncryptionService.derive_key`.  `freshSalt` stands for the
`secrets.token_bytes(16)` drawn when `salt` is `None`. -/
def derive_key (password : String) (salt : Option (List Nat))
    (freshSalt : List Nat) : Except EncError (List Nat × List Nat) :=
  if password = "" then .error .emptyPassword
  else
    match salt with
    | none => .ok (argon2idKey password freshSalt, freshSalt)
    | some s =>
      if s.length ≠ SALT_SIZE then .error .badSaltLength
      else .ok (argon2idKey password s, s)

/-- `EncryptionService.cache_key`: derive and cache the encryption key. -/
def cache_key (svc : EncState) (password : String) (salt : Option (List Nat))
    (freshSalt : List Nat) : Except EncError (EncState × List Nat) :=
  match derive_key password salt freshSalt with
  | .error e => .error e
  | .ok (k, s) => .ok ({ svc with cachedKey := some k, cachedSalt := some s }, s)

/-- `EncryptionService.encrypt`.  `freshSalt` and `freshNonce` stand for the
random bytes drawn inside the call; the envelope is `salt ‖ nonce ‖
ciphertext-with-tag`. -/
def encrypt (svc : EncState) (plaintext : String) (password : Option String)
    (freshSalt freshNonce : List Nat) : Except EncError (List Nat) :=
  if plaintext = "" then .error .emptyPlaintext
  else
    let keySalt : Except EncError (List Nat × List Nat) :=
      if strTruthy password then derive_key (password.getD "") none freshSalt
      else if bytesTruthy svc.cachedKey && bytesTruthy svc.cachedSalt then
        .ok (svc.cachedKey.getD [], svc.cachedSalt.getD [])
      else .error .noKeyAvailable
    match keySalt with
    | .error e => .error e
    | .ok (key, salt) =>
      .ok (salt ++ freshNonce ++ aesgcmEncrypt key freshNonce (strBytes plaintext))

/-- `EncryptionService.decrypt`: parse the envelope as
`salt ‖ nonce ‖ ciphertext`, resolve the key (explicit password, else cached
key when the embedded salt equals the cached salt), then open. -/
def decrypt (svc : EncState) (data : List Nat) (password : Option String) :
    Except EncError String :=
  if data = [] then .error .emptyData
  else if data.length < SALT_SIZE + NONCE_SIZE + TAG_SIZE then .error .dataTooShort
  else
    let salt := data.take SALT_SIZE
    let nonce := (data.drop SALT_SIZE).take NONCE_SIZE
    let ct := data.drop (SALT_SIZE + NONCE_SIZE)
    let keyRes : Except EncError (List Nat) :=
      if strTruthy password then
        match derive_key (password.getD "") (some salt) [] with
        | .ok (k, _) => .ok k
        | .error e => .error e
      else if bytesTruthy svc.cachedKey && svc.cachedSalt = some salt then
        .ok (svc.cachedKey.getD [])
      else .error .noMatchingKey
    match keyRes with
    | .error e => .error e
    | .ok key =>
      match aesgcmDecrypt key nonce ct with
      | none => .error .invalidTag
      | some pt =>
        match decodeBytes pt with
        | some s => .ok s
        | none => .error .decodeFailed

theorem gcmTagBytes_length (key nonce pt : List Nat) :
    (gcmTagBytes key nonce pt).length = TAG_SIZE := by
  simp [gcmTagBytes, TAG_SIZE]

/-- Opening an honestly sealed ciphertext under the same key and nonce
recovers the plaintext bytes. -/
theorem aesgcmDecrypt_aesgcmEncrypt (key nonce pt : List Nat) :
    aesgcmDecrypt key nonce (aesgcmEncrypt key nonce pt) = some pt := by
  have hlen : (aesgcmEncrypt key nonce pt).length = pt.length + TAG_SIZE := by
    simp [aesgcmEncrypt, gcmTagBytes_length]
  simp only [aesgcmDecrypt, hlen]
  rw [if_neg (by omega)]
  have hsub : pt.length + TAG_SIZE - TAG_SIZE = pt.length := by omega
  rw [hsub]
  have htake : (aesgcmEncrypt key nonce pt).take pt.length = pt :=
    List.take_left' rfl
  have hdrop : (aesgcmEncrypt key nonce pt).drop pt.length =
      gcmTagBytes key nonce pt :=
    List.drop_left' rfl
  simp only [htake, hdrop, if_pos rfl]
  simp

/-- Parsing an envelope `salt ‖ nonce ‖ ct` with well-sized salt and nonce. -/
theorem envelope_parse (salt nonce ct : List Nat)
    (hs : salt.length = SALT_SIZE) (hn : nonce.length = NONCE_SIZE) :
    (salt ++ nonce ++ ct).take SALT_SIZE = salt ∧
    ((salt ++ nonce ++ ct).drop SALT_SIZE).take NONCE_SIZE = nonce ∧
    (salt ++ nonce ++ ct).drop (SALT_SIZE + NONCE_SIZE) = ct := by
  refine ⟨?_, ?_, ?_⟩
  · rw [List.append_assoc]
    exact List.take_left' hs
  · rw [List.append_assoc, List.drop_left' hs, List.take_left' hn]
  · exact List.drop_left' (by simp [hs, hn])

/-- `decrypt` with an explicit password on a well-formed envelope reduces to
opening the ciphertext under the key re-derived from the embedded salt. -/
theorem decrypt_password_sealed (svc : EncState) (pw : String)
    (salt nonce ct : List Nat) (hpw : pw ≠ "")
    (hs : salt.length = SALT_SIZE) (hn : nonce.length = NONCE_SIZE)
    (hct : TAG_SIZE ≤ ct.length) :
    decrypt svc (salt ++ nonce ++ ct) (some pw) =
      match aesgcmDecrypt (argon2idKey pw salt) nonce ct with
      | none => .error .invalidTag
      | some pt =>
        match decodeBytes pt with
        | some s => .ok s
        | none => .error .decodeFailed := by
  obtain ⟨h1, h2, h3⟩ := envelope_parse salt nonce ct hs hn
  have hlen : (salt ++ nonce ++ ct).length = SALT_SIZE + NONCE_SIZE + ct.length := by
    simp [hs, hn]; omega
  have hne : salt ++ nonce ++ ct ≠ [] := by
    intro h
    rw [h] at hlen
    simp [SALT_SIZE, NONCE_SIZE] at hlen
    omega
  have htruthy : strTruthy (some pw) = true := by
    simp [strTruthy, hpw]
  simp only [decrypt, if_neg hne]
  rw [if_neg (by omega)]
  rw [h1, h2, h3]
  simp only [htruthy, if_true, Option.getD_some, derive_key, if_neg hpw]
  rw [if_neg (by simp [hs])]

/-- `decrypt` without a password on a well-formed envelope whose salt matches
the cached salt reduces to opening the ciphertext under the cached key. -/
theorem decrypt_cached_sealed (svc : EncState) (k : List Nat)
    (salt nonce ct : List Nat)
    (hk : svc.cachedKey = some k) (hk0 : k ≠ [])
    (hcs : svc.cachedSalt = some salt)
    (hs : salt.length = SALT_SIZE) (hn : nonce.length = NONCE_SIZE)
    (hct : TAG_SIZE ≤ ct.length) :
    decrypt svc (salt ++ nonce ++ ct) none =
      match aesgcmDecrypt k nonce ct with
      | none => .error .invalidTag
      | some pt =>
        match decodeBytes pt with
        | some s => .ok s
        | none => .error .decodeFailed := by
  obtain ⟨h1, h2, h3⟩ := envelope_parse salt nonce ct hs hn
  have hlen : (salt ++ nonce ++ ct).length = SALT_SIZE + NONCE_SIZE + ct.length := by
    simp [hs, hn]; omega
  have hne : salt ++ nonce ++ ct ≠ [] := by
    intro h
    rw [h] at hlen
    simp [SALT_SIZE, NONCE_SIZE] at hlen
    omega
  have htruthy : strTruthy (none : Option String) = false := rfl
  have hcond : (bytesTruthy (some k) && decide (svc.cachedSalt = some salt)) = true := by
    simp [bytesTruthy, hcs, List.isEmpty_iff, hk0]
  simp only [decrypt, if_neg hne]
  rw [if_neg (by omega)]
  rw [h1, h2, h3]
  simp only [htruthy, Bool.false_eq_true, if_false, hk, hcond, if_true,
    Option.getD_some]

/-- `encrypt` with an explicit password seals under the key freshly derived
from `freshSalt` and embeds that salt. -/
theorem encrypt_password_eq (svc : EncState) (P pw : String) (fs fn : List Nat)
    (hP : P ≠ "") (hpw : pw ≠ "") :
    encrypt svc P (some pw) fs fn =
      .ok (fs ++ fn ++ aesgcmEncrypt (argon2idKey pw fs) fn (strBytes P)) := by
  have htruthy : strTruthy (some pw) = true := by simp [strTruthy, hpw]
  simp only [encrypt, if_neg hP, htruthy, if_true, Option.getD_some,
    derive_key, if_neg hpw]

/-- `encrypt` without a password seals under the cached key and embeds the
cached salt. -/
theorem encrypt_cached_eq (svc : EncState) (P : String) (k cs fs fn : List Nat)
    (hP : P ≠ "") (hk : svc.cachedKey = some k) (hk0 : k ≠ [])
    (hcs : svc.cachedSalt = some cs) (hcs0 : cs ≠ []) :
    encrypt svc P none fs fn =
      .ok (cs ++ fn ++ aesgcmEncrypt k fn (strBytes P)) := by
  have htruthy : strTruthy (none : Option String) = false := rfl
  have hcond : (bytesTruthy (some k) && bytesTruthy (some cs)) = true := by
    simp [bytesTruthy, List.isEmpty_iff, hk0, hcs0]
  simp only [encrypt, if_neg hP, htruthy, Bool.false_eq_true, if_false, hk, hcs,
    Option.getD_some, hcond, if_true]

/-- C1 counterexample: the claim quantifies over every plaintext "including
the empty string", but `EncryptionService.encrypt` raises
`ValueError("Plaintext cannot be empty")` on the empty string, so no envelope
is ever produced for it and the round-trip fails at P = "". -/
theorem c1_counterexample :
    encrypt {} "" (some "Str0ng!Password?")
      (List.replicate 16 0) (List.replicate 12 0) = .error .emptyPlaintext := rfl

/-- C1 (amended): for every NONEMPTY plaintext P, decrypting the envelope
produced by `EncryptionService.encrypt(P)` under the same password (left
conjunct: explicit nonempty password, fresh 16-byte salt, fresh 12-byte
nonce) or under the same cached key (right conjunct: cached key and 16-byte
cached salt) returns exactly P. -/
theorem c1_roundtrip_nonempty
    (P pw : String) (svc₁ svc₂ svc : EncState) (k cs fs fn : List Nat)
    (hP : P ≠ "") (hpw : pw ≠ "")
    (hfs : fs.length = SALT_SIZE) (hfn : fn.length = NONCE_SIZE)
    (hk : svc.cachedKey = some k) (hk0 : k ≠ [])
    (hcs : svc.cachedSalt = some cs) (hcs16 : cs.length = SALT_SIZE) :
    (∃ e, encrypt svc₁ P (some pw) fs fn = .ok e ∧
      decrypt svc₂ e (some pw) = .ok P) ∧
    (∃ e, encrypt svc P none fs fn = .ok e ∧
      decrypt svc e none = .ok P) := by
  have hct : TAG_SIZE ≤ (aesgcmEncrypt (argon2idKey pw fs) fn (strBytes P)).length := by
    simp [aesgcmEncrypt, gcmTagBytes_length]
  have hct' : TAG_SIZE ≤ (aesgcmEncrypt k fn (strBytes P)).length := by
    simp [aesgcmEncrypt, gcmTagBytes_length]
  constructor
  · refine ⟨_, encrypt_password_eq svc₁ P pw fs fn hP hpw, ?_⟩
    rw [decrypt_password_sealed svc₂ pw fs fn _ hpw hfs hfn hct]
    simp [aesgcmDecrypt_aesgcmEncrypt, decodeBytes_strBytes]
  · have hcs0 : cs ≠ [] := by
      intro h
      rw [h] at hcs16
      simp [SALT_SIZE] at hcs16
    refine ⟨_, encrypt_cached_eq svc P k cs fs fn hP hk hk0 hcs hcs0, ?_⟩
    rw [decrypt_cached_sealed svc k cs fn _ hk hk0 hcs hcs16 hfn hct']
    simp [aesgcmDecrypt_aesgcmEncrypt, decodeBytes_strBytes]

/-- Witness for C1 (amended) at P = "hello", password "Str0ng!Password?",
an all-zero fresh salt and nonce, and a cached state holding the key derived
from that password and salt. -/
theorem c1_roundtrip_nonempty_witness :
    (∃ e, encrypt {} "hello" (some "Str0ng!Password?")
        (List.replicate 16 0) (List.replicate 12 0) = .ok e ∧
      decrypt {} e (some "Str0ng!Password?") = .ok "hello") ∧
    (∃ e, encrypt
        { cachedKey := some (argon2idKey "Str0ng!Password?" (List.replicate 16 0)),
          cachedSalt := some (List.replicate 16 0) }
        "hello" none (List.replicate 16 0) (List.replicate 12 0) = .ok e ∧
      decrypt
        { cachedKey := some (argon2idKey "Str0ng!Password?" (List.replicate 16 0)),
          cachedSalt := some (List.replicate 16 0) }
        e none = .ok "hello") :=
  c1_roundtrip_nonempty "hello" "Str0ng!Password?" {} {}
    { cachedKey := some (argon2idKey "Str0ng!Password?" (List.replicate 16 0)),
      cachedSalt := some (List.replicate 16 0) }
    (argon2idKey "Str0ng!Password?" (List.replicate 16 0)) (List.replicate 16 0)
    (List.replicate 16 0) (List.replicate 12 0)
    (by decide) (by decide) (by decide) (by decide) rfl
    (by simp [argon2idKey]) rfl (by decide)

/-- C10: when `decrypt` is called without an explicit password, a cached-key
state whose cached salt differs from the envelope's leading 16 bytes makes
the call fail with the no-matching-cached-key `ValueError` ("No password or
matching cached key") before any decryption is attempted — for EVERY such
envelope, even one the cached key would authenticate. -/
theorem c10_cached_salt_mismatch
    (svc : EncState) (data k cs : List Nat)
    (_hk : svc.cachedKey = some k) (hcs : svc.cachedSalt = some cs)
    (hlen : SALT_SIZE + NONCE_SIZE + TAG_SIZE ≤ data.length)
    (hmismatch : data.take SALT_SIZE ≠ cs) :
    decrypt svc data none = .error .noMatchingKey := by
  have hne : data ≠ [] := by
    intro h
    rw [h] at hlen
    simp [SALT_SIZE, NONCE_SIZE, TAG_SIZE] at hlen
  have htruthy : strTruthy (none : Option String) = false := rfl
  have hcond : (bytesTruthy svc.cachedKey &&
      decide (svc.cachedSalt = some (data.take SALT_SIZE))) = false := by
    simp only [hcs, Option.some.injEq]
    have : decide (cs = data.take SALT_SIZE) = false := by
      simp [Ne.symm hmismatch]
    simp [this]
  simp only [decrypt, if_neg hne]
  rw [if_neg (by omega)]
  simp only [htruthy, Bool.false_eq_true, if_false, hcond]

/-- Witness for C10: all-ones salt in the envelope, all-zero cached salt. -/
theorem c10_cached_salt_mismatch_witness :
    decrypt
      { cachedKey := some (List.replicate 32 7),
        cachedSalt := some (List.replicate 16 0) }
      (List.replicate 16 1 ++ List.replicate 28 0) none =
      .error .noMatchingKey :=
  c10_cached_salt_mismatch _ _ (List.replicate 32 7) (List.replicate 16 0)
    rfl rfl (by decide) (by decide)

/-! ### Bit-level tampering (claim C4) -/

/-- Flip bit `k` of byte `i` of a byte string. -/
def flipBit (bs : List Nat) (i k : Nat) : List Nat :=
  bs.set i (bs.getD i 0 ^^^ 2 ^ k)

theorem xor_two_pow_ne (n k : Nat) : n ^^^ 2 ^ k ≠ n := by
  intro h
  have h2 : n ^^^ (n ^^^ 2 ^ k) = n ^^^ n := by rw [h]
  rw [← Nat.xor_assoc, Nat.xor_self, Nat.zero_xor] at h2
  have h3 : 0 < 2 ^ k := Nat.two_pow_pos k
  omega

theorem flipBit_length (bs : List Nat) (i k : Nat) :
    (flipBit bs i k).length = bs.length := by
  simp [flipBit]

theorem flipBit_ne (bs : List Nat) (i k : Nat) (h : i < bs.length) :
    flipBit bs i k ≠ bs := by
  intro heq
  have heq' : bs.set i (bs.getD i 0 ^^^ 2 ^ k) = bs := heq
  have h1 := congrArg (fun l => l[i]?) heq'
  simp only [List.getElem?_set_self h, List.getElem?_eq_getElem h,
    Option.some.injEq] at h1
  have hD : bs.getD i 0 = bs[i] := by
    simp [List.getD_eq_getElem?_getD, List.getElem?_eq_getElem h]
  rw [hD] at h1
  exact xor_two_pow_ne bs[i] k h1

theorem flipBit_append_left (l₁ l₂ : List Nat) (i k : Nat) (h : i < l₁.length) :
    flipBit (l₁ ++ l₂) i k = flipBit l₁ i k ++ l₂ := by
  simp only [flipBit, List.set_append_left _ _ h]
  congr 2
  simp [List.getD_eq_getElem?_getD, List.getElem?_append_left h]

theorem flipBit_append_right (l₁ l₂ : List Nat) (i k : Nat) (h : l₁.length ≤ i) :
    flipBit (l₁ ++ l₂) i k = l₁ ++ flipBit l₂ (i - l₁.length) k := by
  simp only [flipBit, List.set_append_right _ _ h]
  congr 3
  simp [List.getD_eq_getElem?_getD, List.getElem?_append_right h]

/-- The ideal tag is collision-free in the plaintext for a fixed key and
nonce. -/
theorem gcmTagBytes_inj (key nonce b₁ b₂ : List Nat)
    (h : gcmTagBytes key nonce b₁ = gcmTagBytes key nonce b₂) : b₁ = b₂ := by
  simp only [gcmTagBytes, List.cons.injEq] at h
  exact encodeList_injective (Nat.pair_eq_pair.mp (Nat.pair_eq_pair.mp h.1).2).2

/-- Opening a sealed ciphertext after flipping any single bit of it (body or
tag) fails tag verification. -/
theorem aesgcmDecrypt_flipBit (key nonce pt : List Nat) (j k : Nat)
    (hj : j < (aesgcmEncrypt key nonce pt).length) :
    aesgcmDecrypt key nonce (flipBit (aesgcmEncrypt key nonce pt) j k) = none := by
  have hlen : (aesgcmEncrypt key nonce pt).length = pt.length + TAG_SIZE := by
    simp [aesgcmEncrypt, gcmTagBytes_length]
  rw [hlen] at hj
  by_cases hbody : j < pt.length
  · -- flip lands in the ciphertext body
    rw [aesgcmEncrypt, flipBit_append_left _ _ _ _ hbody]
    have hblen : (flipBit pt j k).length = pt.length := flipBit_length pt j k
    simp only [aesgcmDecrypt, List.length_append, hblen, gcmTagBytes_length]
    rw [if_neg (by omega)]
    have hsub : pt.length + TAG_SIZE - TAG_SIZE = pt.length := by omega
    rw [hsub]
    rw [List.take_left' hblen, List.drop_left' hblen]
    rw [if_neg]
    intro h
    exact flipBit_ne pt j k hbody (gcmTagBytes_inj _ _ _ _ h.symm)
  · -- flip lands in the tag
    have hle : pt.length ≤ j := Nat.le_of_not_lt hbody
    rw [aesgcmEncrypt, flipBit_append_right _ _ _ _ hle]
    have htlen : (flipBit (gcmTagBytes key nonce pt) (j - pt.length) k).length =
        TAG_SIZE := by
      rw [flipBit_length, gcmTagBytes_length]
    simp only [aesgcmDecrypt, List.length_append, htlen]
    rw [if_neg (by omega)]
    have hsub : pt.length + TAG_SIZE - TAG_SIZE = pt.length := by omega
    rw [hsub]
    rw [List.take_left' rfl, List.drop_left' rfl]
    rw [if_neg]
    have hjt : j - pt.length < (gcmTagBytes key nonce pt).length := by
      rw [gcmTagBytes_length]; omega
    exact flipBit_ne _ _ k hjt

/-- C4: flipping any single bit of the ciphertext or authentication-tag bytes
of an envelope sealed by `encrypt` (byte index `i` past the 28-byte
salt-and-nonce header, any bit `k`) makes `decrypt` under the matching key
fail with the authentication-failure `ValueError` ("Decryption failed:
incorrect password or corrupted data"); altered plaintext is never returned.
Left conjunct: password mode; right conjunct: cached-key mode. -/
theorem c4_bit_flip_auth_failure
    (P pw : String) (svc₁ svc₂ svc : EncState) (k₀ cs fs fn : List Nat)
    (i k : Nat) (hP : P ≠ "") (hpw : pw ≠ "")
    (hfs : fs.length = SALT_SIZE) (hfn : fn.length = NONCE_SIZE)
    (hck : svc.cachedKey = some k₀) (hck0 : k₀ ≠ [])
    (hcs : svc.cachedSalt = some cs) (hcs16 : cs.length = SALT_SIZE)
    (hi : SALT_SIZE + NONCE_SIZE ≤ i) :
    (∀ e, encrypt svc₁ P (some pw) fs fn = .ok e → i < e.length →
      decrypt svc₂ (flipBit e i k) (some pw) = .error .invalidTag) ∧
    (∀ e, encrypt svc P none fs fn = .ok e → i < e.length →
      decrypt svc (flipBit e i k) none = .error .invalidTag) := by
  have hpfx : ∀ salt : List Nat, salt.length = SALT_SIZE →
      (salt ++ fn).length = SALT_SIZE + NONCE_SIZE := by
    intro salt hs
    simp [hs, hfn]
  constructor
  · intro e henc hilen
    rw [encrypt_password_eq svc₁ P pw fs fn hP hpw] at henc
    injection henc with henc
    subst henc
    rw [show fs ++ fn ++ aesgcmEncrypt (argon2idKey pw fs) fn (strBytes P) =
        (fs ++ fn) ++ aesgcmEncrypt (argon2idKey pw fs) fn (strBytes P) from rfl]
    rw [flipBit_append_right _ _ _ _ (by rw [hpfx fs hfs]; exact hi)]
    rw [List.append_assoc]
    rw [show fs ++ (fn ++ flipBit (aesgcmEncrypt (argon2idKey pw fs) fn (strBytes P))
        (i - (fs ++ fn).length) k) = fs ++ fn ++ flipBit
        (aesgcmEncrypt (argon2idKey pw fs) fn (strBytes P))
        (i - (fs ++ fn).length) k from (List.append_assoc _ _ _).symm]
    rw [decrypt_password_sealed svc₂ pw fs fn _ hpw hfs hfn
      (by rw [flipBit_length]; simp [aesgcmEncrypt, gcmTagBytes_length])]
    rw [aesgcmDecrypt_flipBit]
    rw [hpfx fs hfs]
    simp only [List.length_append] at hilen
    omega
  · intro e henc hilen
    rw [encrypt_cached_eq svc P k₀ cs fs fn hP hck hck0 hcs
      (by intro h; rw [h] at hcs16; simp [SALT_SIZE] at hcs16)] at henc
    injection henc with henc
    subst henc
    rw [show cs ++ fn ++ aesgcmEncrypt k₀ fn (strBytes P) =
        (cs ++ fn) ++ aesgcmEncrypt k₀ fn (strBytes P) from rfl]
    rw [flipBit_append_right _ _ _ _ (by rw [hpfx cs hcs16]; exact hi)]
    rw [List.append_assoc]
    rw [show cs ++ (fn ++ flipBit (aesgcmEncrypt k₀ fn (strBytes P))
        (i - (cs ++ fn).length) k) = cs ++ fn ++ flipBit
        (aesgcmEncrypt k₀ fn (strBytes P)) (i - (cs ++ fn).length) k from
        (List.append_assoc _ _ _).symm]
    rw [decrypt_cached_sealed svc k₀ cs fn _ hck hck0 hcs hcs16 hfn
      (by rw [flipBit_length]; simp [aesgcmEncrypt, gcmTagBytes_length])]
    rw [aesgcmDecrypt_flipBit]
    rw [hpfx cs hcs16]
    simp only [List.length_append] at hilen
    omega

/-- Witness for C4: flip bit 0 of the first ciphertext byte (index 28) of a
concrete envelope sealed under password "Str0ng!Password?" in both modes. -/
theorem c4_bit_flip_auth_failure_witness :
    decrypt {} (flipBit (List.replicate 16 0 ++ List.replicate 12 0 ++
        aesgcmEncrypt (argon2idKey "Str0ng!Password?" (List.replicate 16 0))
          (List.replicate 12 0) (strBytes "hi")) 28 0)
      (some "Str0ng!Password?") = .error .invalidTag ∧
    decrypt
      { cachedKey := some (argon2idKey "Str0ng!Password?" (List.replicate 16 0)),
        cachedSalt := some (List.replicate 16 0) }
      (flipBit (List.replicate 16 0 ++ List.replicate 12 0 ++
        aesgcmEncrypt (argon2idKey "Str0ng!Password?" (List.replicate 16 0))
          (List.replicate 12 0) (strBytes "hi")) 28 0)
      none = .error .invalidTag := by
  have h := c4_bit_flip_auth_failure "hi" "Str0ng!Password?" {} {}
    { cachedKey := some (argon2idKey "Str0ng!Password?" (List.replicate 16 0)),
      cachedSalt := some (List.replicate 16 0) }
    (argon2idKey "Str0ng!Password?" (List.replicate 16 0)) (List.replicate 16 0)
    (List.replicate 16 0) (List.replicate 12 0) 28 0
    (by decide) (by decide) (by decide) (by decide) rfl
    (by simp [argon2idKey]) rfl (by decide) (by decide)
  have hlen : (28 : Nat) < (List.replicate 16 0 ++ List.replicate 12 0 ++
      aesgcmEncrypt (argon2idKey "Str0ng!Password?" (List.replicate 16 0))
        (List.replicate 12 0) (strBytes "hi")).length := by
    simp [aesgcmEncrypt, gcmTagBytes_length, TAG_SIZE]
  exact ⟨h.1 _ (encrypt_password_eq {} "hi" "Str0ng!Password?"
      (List.replicate 16 0) (List.replicate 12 0) (by decide) (by decide)) hlen,
    h.2 _ (encrypt_cached_eq _ "hi"
      (argon2idKey "Str0ng!Password?" (List.replicate 16 0)) (List.replicate 16 0)
      (List.replicate 16 0) (List.replicate 12 0) (by decide) rfl
      (by simp [argon2idKey]) rfl (by decide)) hlen⟩

/-! ### AuthenticationManager (src/core/auth.py and src/core/auth_manager.py) -/

def MAX_ATTEMPTS : Nat := 5
def LOCKOUT_DURATION : Nat := 300

/-- Modelled from the spec: KeyDerivation (§4.1), the library
PBKDF2-HMAC-SHA256 used by `auth._hash_password`.  Deterministic and
collision-free (ideal hash). -/
def pbkdf2Hash (password : String) (salt : List Nat) : List Nat :=
  [Nat.pair (encodeList (strBytes password)) (encodeList salt)]

theorem pbkdf2Hash_ne_of_ne (p q : String) (salt : List Nat) (h : p ≠ q) :
    pbkdf2Hash p salt ≠ pbkdf2Hash q salt := by
  intro heq
  simp only [pbkdf2Hash, List.cons.injEq, and_true] at heq
  exact h (strBytes_injective (encodeList_injective (Nat.pair_eq_pair.mp heq).1))

/-- The state of `auth.AuthenticationManager`: the in-memory counters plus
the on-disk `auth.json` record (password hash and salt, absent on first
run). -/
structure PyAuthState where
  failed_attempts : Nat := 0
  lockout_until : Nat := 0
  authFile : Option (List Nat × List Nat) := none
  deriving DecidableEq

/-- The messages returned by `auth.AuthenticationManager.verify_password`,
one constructor per return site. -/
inductive VerifyMsg where
  /-- "Account locked. Try again in {remaining} seconds" -/
  | accountLocked (remaining : Nat)
  /-- "No password configured" -/
  | noPasswordConfigured
  /-- "Authentication successful" -/
  | authSuccessful
  /-- "Too many failed attempts. Locked for 300 seconds" -/
  | tooManyFailedAttempts
  /-- "Incorrect password ({n} attempts remaining)" -/
  | incorrectPassword (remaining : Nat)
  deriving DecidableEq

/-- `auth.AuthenticationManager.verify_password`.  `now` stands for
`time.time()` (frozen for the duration of one call).  Returns
`((success, message), updated state)`. -/
def verify_password (st : PyAuthState) (now : Nat) (password : String) :
    (Bool × VerifyMsg) × PyAuthState :=
  if now < st.lockout_until then
    ((false, .accountLocked (st.lockout_until - now)), st)
  else
    match st.authFile with
    | none => ((false, .noPasswordConfigured), st)
    | some (storedHash, salt) =>
      if pbkdf2Hash password salt = storedHash then
        ((true, .authSuccessful), { st with failed_attempts := 0 })
      else
        let fa := st.failed_attempts + 1
        if MAX_ATTEMPTS ≤ fa then
          ((false, .tooManyFailedAttempts),
            { st with failed_attempts := fa,
                      lockout_until := now + LOCKOUT_DURATION })
        else
          ((false, .incorrectPassword (MAX_ATTEMPTS - fa)),
            { st with failed_attempts := fa })

/-- The state of `auth_manager.AuthenticationManager`: counters plus the
stored salt from `auth.json` (this variant stores no password hash). -/
structure AmState where
  failed_attempts : Nat := 0
  lockout_until : Option Nat := none
  authSalt : Option (List Nat) := none
  deriving DecidableEq

/-- `auth_manager.AuthenticationManager.is_locked_out`. -/
def is_locked_out (st : AmState) (now : Nat) : Bool :=
  match st.lockout_until with
  | none => false
  | some t => now < t

/-- Outcomes of `auth_manager.AuthenticationManager.verify_master_password`,
one constructor per raise/return site. -/
inductive AmResult where
  /-- `AccountLockedError("Account locked due to failed attempts. ...")` -/
  | lockedError (remaining : Nat)
  /-- `AccountLockedError("Too many failed attempts. ...")` -/
  | lockedAfterFailures
  /-- `AuthenticationError("No password configured")` -/
  | noPasswordConfigured
  /-- `AuthenticationError("Invalid password. {n} attempts remaining.")` -/
  | invalidPassword (remaining : Nat)
  /-- `return True, key` -/
  | ok (key : List Nat)
  deriving DecidableEq

/-- `auth_manager.AuthenticationManager.verify_master_password`: checks the
lockout, then re-derives the key from the stored salt; the failed-attempt
branch fires exactly when `derive_key` raises. -/
def verify_master_password (st : AmState) (now : Nat) (password : String) :
    AmResult × AmState :=
  if is_locked_out st now then
    (.lockedError ((st.lockout_until.getD 0) - now), st)
  else
    match st.authSalt with
    | none => (.noPasswordConfigured, st)
    | some salt =>
      match derive_key password (some salt) [] with
      | .ok (key, _) => (.ok key, { st with failed_attempts := 0 })
      | .error _ =>
        let fa := st.failed_attempts + 1
        if MAX_ATTEMPTS ≤ fa then
          (.lockedAfterFailures,
            { st with failed_attempts := fa,
                      lockout_until := some (now + LOCKOUT_DURATION) })
        else
          (.invalidPassword (MAX_ATTEMPTS - fa),
            { st with failed_attempts := fa })

/-- A sequence of `verify_password` calls, threading the manager state. -/
def verify_password_run (st : PyAuthState) : List (Nat × String) → PyAuthState
  | [] => st
  | (t, p) :: rest => verify_password_run (verify_password st t p).2 rest

theorem verify_password_wrong_step (H salt : List Nat) (fa l₀ now : Nat)
    (w : String) (hne : pbkdf2Hash w salt ≠ H) (hl : l₀ ≤ now)
    (hfa : fa + 1 < MAX_ATTEMPTS) :
    verify_password ⟨fa, l₀, some (H, salt)⟩ now w =
      ((false, .incorrectPassword (MAX_ATTEMPTS - (fa + 1))),
        ⟨fa + 1, l₀, some (H, salt)⟩) := by
  simp only [verify_password]
  rw [if_neg (show ¬ now < l₀ by omega)]
  simp only [if_neg hne]
  rw [if_neg (show ¬ MAX_ATTEMPTS ≤ fa + 1 by omega)]

theorem verify_password_lockout_step (H salt : List Nat) (l₀ now : Nat)
    (w : String) (hne : pbkdf2Hash w salt ≠ H) (hl : l₀ ≤ now) :
    verify_password ⟨MAX_ATTEMPTS - 1, l₀, some (H, salt)⟩ now w =
      ((false, .tooManyFailedAttempts),
        ⟨MAX_ATTEMPTS, now + LOCKOUT_DURATION, some (H, salt)⟩) := by
  simp only [verify_password]
  rw [if_neg (show ¬ now < l₀ by omega)]
  simp only [if_neg hne]
  rw [if_pos (show MAX_ATTEMPTS ≤ MAX_ATTEMPTS - 1 + 1 by simp [MAX_ATTEMPTS])]
  simp [MAX_ATTEMPTS]

theorem verify_password_locked (st : PyAuthState) (now : Nat) (p : String)
    (h : now < st.lockout_until) :
    verify_password st now p =
      ((false, .accountLocked (st.lockout_until - now)), st) := by
  simp only [verify_password, if_pos h]

theorem verify_master_password_locked (st : AmState) (now : Nat) (p : String)
    (h : is_locked_out st now = true) :
    verify_master_password st now p =
      (.lockedError (st.lockout_until.getD 0 - now), st) := by
  simp only [verify_master_password, if_pos h]

theorem verify_master_password_empty_step (salt : List Nat) (fa now : Nat)
    (hfa : fa + 1 < MAX_ATTEMPTS) :
    verify_master_password ⟨fa, none, some salt⟩ now "" =
      (.invalidPassword (MAX_ATTEMPTS - (fa + 1)), ⟨fa + 1, none, some salt⟩) := by
  simp only [verify_master_password, is_locked_out]
  rw [if_neg (by simp)]
  simp only [derive_key]
  rw [if_pos trivial]
  rw [if_neg (show ¬ MAX_ATTEMPTS ≤ fa + 1 by omega)]

theorem verify_master_password_empty_lockout (salt : List Nat) (now : Nat) :
    verify_master_password ⟨MAX_ATTEMPTS - 1, none, some salt⟩ now "" =
      (.lockedAfterFailures,
        ⟨MAX_ATTEMPTS, some (now + LOCKOUT_DURATION), some salt⟩) := by
  simp only [verify_master_password, is_locked_out]
  rw [if_neg (by simp)]
  simp only [derive_key]
  rw [if_pos trivial]
  rw [if_pos (show MAX_ATTEMPTS ≤ MAX_ATTEMPTS - 1 + 1 by simp [MAX_ATTEMPTS])]
  simp [MAX_ATTEMPTS]

/-- C2: from the Ready state (zero failed attempts, expired lockout,
configured password `pc`), five consecutive `verify` calls with wrong
passwords lock the account, the 6th call — even with the correct password —
fails with the AccountLocked error, and no call made while locked mutates
the failed-attempt counter or the unlock timestamp.  First conjunct:
`auth.AuthenticationManager.verify_password` (hash comparison defines
"wrong").  Second: `auth_manager.AuthenticationManager.verify_master_password`
(its failed branch fires when key derivation rejects the password; the empty
password is the wrong password it can see).  Last two conjuncts: while
locked, both variants return the locked error and leave the whole state —
counter and unlock timestamp included — unchanged. -/
theorem c2_lockout_after_five_failures
    (pc w1 w2 w3 w4 w5 : String) (salt : List Nat) (l₀ t1 t2 t3 t4 t5 t6 : Nat)
    (hw1 : w1 ≠ pc) (hw2 : w2 ≠ pc) (hw3 : w3 ≠ pc) (hw4 : w4 ≠ pc)
    (hw5 : w5 ≠ pc) (hl : l₀ ≤ t1) (h12 : t1 ≤ t2) (h23 : t2 ≤ t3)
    (h34 : t3 ≤ t4) (h45 : t4 ≤ t5) (h6 : t6 < t5 + LOCKOUT_DURATION) :
    (verify_password
        (verify_password_run
          { failed_attempts := 0, lockout_until := l₀,
            authFile := some (pbkdf2Hash pc salt, salt) }
          [(t1, w1), (t2, w2), (t3, w3), (t4, w4), (t5, w5)])
        t6 pc =
      ((false, .accountLocked (t5 + LOCKOUT_DURATION - t6)),
        verify_password_run
          { failed_attempts := 0, lockout_until := l₀,
            authFile := some (pbkdf2Hash pc salt, salt) }
          [(t1, w1), (t2, w2), (t3, w3), (t4, w4), (t5, w5)])) ∧
    (verify_master_password
        ((verify_master_password
          ((verify_master_password
            ((verify_master_password
              ((verify_master_password
                ((verify_master_password
                  { failed_attempts := 0, lockout_until := none,
                    authSalt := some salt } t1 "").2) t2 "").2) t3 "").2)
                t4 "").2) t5 "").2) t6 pc).1 =
      AmResult.lockedError (t5 + LOCKOUT_DURATION - t6) ∧
    (∀ (st : PyAuthState) (now : Nat) (p : String), now < st.lockout_until →
      (verify_password st now p).2 = st) ∧
    (∀ (st : AmState) (now : Nat) (p : String), is_locked_out st now = true →
      (verify_master_password st now p).2 = st) := by
  have hne1 := pbkdf2Hash_ne_of_ne w1 pc salt hw1
  have hne2 := pbkdf2Hash_ne_of_ne w2 pc salt hw2
  have hne3 := pbkdf2Hash_ne_of_ne w3 pc salt hw3
  have hne4 := pbkdf2Hash_ne_of_ne w4 pc salt hw4
  have hne5 := pbkdf2Hash_ne_of_ne w5 pc salt hw5
  refine ⟨?_, ?_, ?_, ?_⟩
  · have hrun : verify_password_run
        { failed_attempts := 0, lockout_until := l₀,
          authFile := some (pbkdf2Hash pc salt, salt) }
        [(t1, w1), (t2, w2), (t3, w3), (t4, w4), (t5, w5)] =
        ⟨MAX_ATTEMPTS, t5 + LOCKOUT_DURATION, some (pbkdf2Hash pc salt, salt)⟩ := by
      simp only [verify_password_run]
      rw [verify_password_wrong_step _ _ 0 _ _ _ hne1 hl (by simp [MAX_ATTEMPTS])]
      rw [verify_password_wrong_step _ _ 1 _ _ _ hne2 (by omega) (by simp [MAX_ATTEMPTS])]
      rw [verify_password_wrong_step _ _ 2 _ _ _ hne3 (by omega) (by simp [MAX_ATTEMPTS])]
      rw [verify_password_wrong_step _ _ 3 _ _ _ hne4 (by omega) (by simp [MAX_ATTEMPTS])]
      rw [show (3 + 1 : Nat) = MAX_ATTEMPTS - 1 by simp [MAX_ATTEMPTS]]
      rw [verify_password_lockout_step _ _ _ _ _ hne5 (by omega)]
    rw [hrun]
    rw [verify_password_locked _ _ _
      (show t6 < (⟨MAX_ATTEMPTS, t5 + LOCKOUT_DURATION,
        some (pbkdf2Hash pc salt, salt)⟩ : PyAuthState).lockout_until from h6)]
  · rw [verify_master_password_empty_step salt 0 t1 (by simp [MAX_ATTEMPTS])]
    rw [verify_master_password_empty_step salt 1 t2 (by simp [MAX_ATTEMPTS])]
    rw [verify_master_password_empty_step salt 2 t3 (by simp [MAX_ATTEMPTS])]
    rw [verify_master_password_empty_step salt 3 t4 (by simp [MAX_ATTEMPTS])]
    rw [show (3 + 1 : Nat) = MAX_ATTEMPTS - 1 by simp [MAX_ATTEMPTS]]
    rw [verify_master_password_empty_lockout salt t5]
    rw [verify_master_password_locked _ _ _
      (show is_locked_out ⟨MAX_ATTEMPTS, some (t5 + LOCKOUT_DURATION), some salt⟩ t6 = true by
        simp [is_locked_out]; omega)]
    rfl
  · intro st now p h
    rw [verify_password_locked st now p h]
  · intro st now p h
    rw [verify_master_password_locked st now p h]

/-- Witness for C2: five wrong attempts ("wrong") at seconds 1..5 against the
configured password "Str0ng!Password?", then the correct password at second
6. -/
theorem c2_lockout_after_five_failures_witness :
    (verify_password
        (verify_password_run
          { failed_attempts := 0, lockout_until := 0,
            authFile := some (pbkdf2Hash "Str0ng!Password?" (List.replicate 16 0),
              List.replicate 16 0) }
          [(1, "wrong"), (2, "wrong"), (3, "wrong"), (4, "wrong"), (5, "wrong")])
        6 "Str0ng!Password?" =
      ((false, .accountLocked (5 + LOCKOUT_DURATION - 6)),
        verify_password_run
          { failed_attempts := 0, lockout_until := 0,
            authFile := some (pbkdf2Hash "Str0ng!Password?" (List.replicate 16 0),
              List.replicate 16 0) }
          [(1, "wrong"), (2, "wrong"), (3, "wrong"), (4, "wrong"), (5, "wrong")])) ∧
    (verify_master_password
        ((verify_master_password
          ((verify_master_password
            ((verify_master_password
              ((verify_master_password
                ((verify_master_password
                  { failed_attempts := 0, lockout_until := none,
                    authSalt := some (List.replicate 16 0) } 1 "").2) 2 "").2)
                  3 "").2) 4 "").2) 5 "").2) 6 "Str0ng!Password?").1 =
      AmResult.lockedError (5 + LOCKOUT_DURATION - 6) := by
  have h := c2_lockout_after_five_failures "Str0ng!Password?"
    "wrong" "wrong" "wrong" "wrong" "wrong" (List.replicate 16 0)
    0 1 2 3 4 5 6 (by decide) (by decide) (by decide) (by decide) (by decide)
    (by decide) (by decide) (by decide) (by decide) (by decide)
    (by simp [LOCKOUT_DURATION])
  exact ⟨h.1, h.2.1⟩

/-! ### Password strength validation
(src/core/auth_manager.py, `validate_password_strength`) -/

/-- Python `str.isupper` on one character (ASCII range, as exercised by the
validator). -/
def pyIsUpper (c : Char) : Bool := 'A' ≤ c && c ≤ 'Z'

/-- Python `str.islower` on one character (ASCII range). -/
def pyIsLower (c : Char) : Bool := 'a' ≤ c && c ≤ 'z'

/-- Python `str.isdigit` on one character (ASCII range). -/
def pyIsDigit (c : Char) : Bool := '0' ≤ c && c ≤ '9'

/-- Python `str.lower` on one character (ASCII range). -/
def pyToLower (c : Char) : Char :=
  if pyIsUpper c then Char.ofNat (c.toNat + 32) else c

/-- The special-character set of `validate_password_strength`. -/
def SPECIAL_CHARS : List Char := "!@#$%^&*()_+-=[]\x7b\x7d|;:,.<>?/~`".data

/-- The denylist of common weak patterns, in source order. -/
def WEAK_PATTERNS : List String := ["password", "12345", "qwerty", "admin", "letmein"]

/-- `needle` is a prefix of `haystack` (character lists). -/
def listStartsWith : List Char → List Char → Bool
  | _, [] => true
  | [], _ :: _ => false
  | a :: s, b :: p => a == b && listStartsWith s p

/-- Python's substring test `needle in haystack` (character lists). -/
def listContainsSub (needle : List Char) : List Char → Bool
  | [] => listStartsWith [] needle
  | a :: t => listStartsWith (a :: t) needle || listContainsSub needle t

/-- The messages returned by `validate_password_strength` /
`setup_master_password`, one constructor per return site. -/
inductive StrengthMsg where
  /-- "Password must be at least 12 characters" -/
  | tooShort
  /-- "Password must not exceed 128 characters" -/
  | tooLong
  /-- "Password must contain: {missing}" with the list of unmet
  requirement names -/
  | missing (reqs : List String)
  /-- "Password contains common weak pattern: {pattern}" -/
  | weakPattern (pat : String)
  /-- "Password meets requirements" -/
  | meetsRequirements
  /-- "Password setup successful" (`setup_master_password`) -/
  | setupSuccessful
  deriving DecidableEq

/-- `auth_manager.AuthenticationManager.validate_password_strength`. -/
def validate_password_strength (password : String) : Bool × StrengthMsg :=
  if password.length < 12 then (false, .tooShort)
  else if 128 < password.length then (false, .tooLong)
  else
    let has_upper := password.data.any pyIsUpper
    let has_lower := password.data.any pyIsLower
    let has_digit := password.data.any pyIsDigit
    let has_special := password.data.any (fun c => SPECIAL_CHARS.contains c)
    let missing :=
      (if !has_upper then ["uppercase letter"] else []) ++
      (if !has_lower then ["lowercase letter"] else []) ++
      (if !has_digit then ["digit"] else []) ++
      (if !has_special then ["special character"] else [])
    if missing ≠ [] then (false, .missing missing)
    else
      match WEAK_PATTERNS.find?
          (fun pat => listContainsSub pat.data (password.data.map pyToLower)) with
      | some pat => (false, .weakPattern pat)
      | none => (true, .meetsRequirements)

/-- `auth_manager.AuthenticationManager.setup_master_password`: validate,
then derive a key from a fresh salt and store the salt in `auth.json`
(modelled as the stored salt record). -/
def setup_master_password (authFile : Option (List Nat)) (password : String)
    (freshSalt : List Nat) : (Bool × StrengthMsg) × Option (List Nat) :=
  match validate_password_strength password with
  | (false, msg) => ((false, msg), authFile)
  | (true, _) => ((true, .setupSuccessful), some freshSalt)

/-- C8: setup-time password validation accepts a password iff its length is
between 12 and 128, it contains an uppercase letter, a lowercase letter, a
digit and a special character, and no denylisted weak substring occurs in its
lowercased form; otherwise `setup_master_password` fails, reporting the
validator's message (the `.missing` message carries exactly the unmet
requirement names, by construction), and stores nothing. -/
theorem c8_password_validation (password : String) :
    ((validate_password_strength password).1 = true ↔
      (12 ≤ password.length ∧ password.length ≤ 128 ∧
        (∃ c ∈ password.data, pyIsUpper c) ∧
        (∃ c ∈ password.data, pyIsLower c) ∧
        (∃ c ∈ password.data, pyIsDigit c) ∧
        (∃ c ∈ password.data, c ∈ SPECIAL_CHARS) ∧
        (∀ pat ∈ WEAK_PATTERNS,
          listContainsSub pat.data (password.data.map pyToLower) = false))) ∧
    (∀ (authFile : Option (List Nat)) (freshSalt : List Nat),
      (validate_password_strength password).1 = false →
        setup_master_password authFile password freshSalt =
          ((false, (validate_password_strength password).2), authFile)) := by
  constructor
  · simp only [validate_password_strength]
    by_cases h12 : password.length < 12
    · rw [if_pos h12]
      simp
      omega
    · rw [if_neg h12]
      by_cases h128 : 128 < password.length
      · rw [if_pos h128]
        simp
        omega
      · rw [if_neg h128]
        have hcontains : ∀ c : Char,
            ((SPECIAL_CHARS.contains c) = true) ↔ c ∈ SPECIAL_CHARS := by
          intro c
          simp [List.contains]
        have hifnil : ∀ (b : Bool) (s : String),
            ((if (!b) = true then [s] else []) = []) ↔ b = true := by
          intro b s
          cases b <;> simp
        by_cases hmiss : ((if !password.data.any pyIsUpper then ["uppercase letter"] else []) ++
            (if !password.data.any pyIsLower then ["lowercase letter"] else []) ++
            (if !password.data.any pyIsDigit then ["digit"] else []) ++
            (if !password.data.any (fun c => SPECIAL_CHARS.contains c)
              then ["special character"] else [])) ≠ []
        · rw [if_pos hmiss]
          constructor
          · intro h
            simp at h
          · rintro ⟨-, -, hu, hl, hd, hs, -⟩
            exfalso
            apply hmiss
            have hu2 := List.any_eq_true.mpr hu
            have hl2 := List.any_eq_true.mpr hl
            have hd2 := List.any_eq_true.mpr hd
            have hs2 : password.data.any (fun c => SPECIAL_CHARS.contains c) = true := by
              rcases hs with ⟨c, hc, hm⟩
              exact List.any_eq_true.mpr ⟨c, hc, (hcontains c).mpr hm⟩
            simp [hu2, hl2, hd2, hs2]
            exact hs
        · rw [if_neg hmiss]
          push_neg at hmiss
          rw [List.append_eq_nil, List.append_eq_nil, List.append_eq_nil] at hmiss
          obtain ⟨⟨⟨e1, e2⟩, e3⟩, e4⟩ := hmiss
          have hu2 := (hifnil _ _).mp e1
          have hl2 := (hifnil _ _).mp e2
          have hd2 := (hifnil _ _).mp e3
          have hs2 := (hifnil _ _).mp e4
          constructor
          · intro h
            rcases hfind : WEAK_PATTERNS.find?
                (fun pat => listContainsSub pat.data (password.data.map pyToLower)) with _ | pat
            · refine ⟨by omega, by omega, List.any_eq_true.mp hu2,
                List.any_eq_true.mp hl2, List.any_eq_true.mp hd2, ?_, ?_⟩
              · rcases List.any_eq_true.mp hs2 with ⟨c, hc, hm⟩
                exact ⟨c, hc, (hcontains c).mp hm⟩
              · intro pat hpat
                have hnp := List.find?_eq_none.mp hfind pat hpat
                simpa using hnp
            · rw [hfind] at h
              simp at h
          · rintro ⟨-, -, -, -, -, -, hw⟩
            have hfind : WEAK_PATTERNS.find?
                (fun pat => listContainsSub pat.data (password.data.map pyToLower)) = none := by
              rw [List.find?_eq_none]
              intro pat hpat
              simp [hw pat hpat]
            rw [hfind]
  · intro authFile freshSalt hfail
    simp only [setup_master_password]
    rcases hv : validate_password_strength password with ⟨b, msg⟩
    rw [hv] at hfail
    simp at hfail
    subst hfail
    rfl

/-- Witness for C8: "Tr0ub4dor&Xy!" meets every requirement and is accepted;
"abc" is rejected and `setup_master_password` fails without storing a salt. -/
theorem c8_password_validation_witness :
    (validate_password_strength "Tr0ub4dor&Xy!").1 = true ∧
    setup_master_password none "abc" [] =
      ((false, (validate_password_strength "abc").2), none) :=
  ⟨(c8_password_validation "Tr0ub4dor&Xy!").1.mpr (by decide),
   (c8_password_validation "abc").2 none [] (by decide)⟩

/-! ### NoteController (src/controllers/note_controller.py) -/

/-- Python `str.strip()` whitespace set (ASCII). -/
def pyIsSpace (c : Char) : Bool :=
  c = ' ' || c = '\t' || c = '\n' || c = '\r' || c = '\x0b' || c = '\x0c'

/-- Python `str.strip()`: drop leading and trailing whitespace. -/
def pyStrip (s : String) : String :=
  ⟨((s.data.dropWhile pyIsSpace).reverse.dropWhile pyIsSpace).reverse⟩

/-- One row of the `notes` table, restricted to the columns the claims
touch. -/
structure NoteRow where
  id : String
  titleEnc : List Nat
  contentEnc : List Nat
  notebook_id : Option String := none
  is_trashed : Bool := false
  modified_at : Nat := 0
  deriving DecidableEq

/-- `NoteController.create_note`: substitute the single-space placeholder for
empty content, encrypt title (defaulting an empty title) and content with the
cached session key, and INSERT the row.  `sT nT sC nC` are the fresh salt and
nonce drawn inside the two `encrypt` calls; `now` stands for
`datetime.now()`. -/
def create_note (svc : EncState) (db : List NoteRow) (nid title content : String)
    (sT nT sC nC : List Nat) (now : Nat) : Except EncError (List NoteRow) :=
  let contentStored := if content ≠ "" then content else " "
  match encrypt svc (if title ≠ "" then title else "Untitled Note") none sT nT with
  | .error e => .error e
  | .ok tEnc =>
    match encrypt svc contentStored none sC nC with
    | .error e => .error e
    | .ok cEnc =>
      .ok (db ++ [{ id := nid, titleEnc := tEnc, contentEnc := cEnc,
                    is_trashed := false, modified_at := now }])

/-- `NoteController.get_note`: SELECT the first non-trashed row with the id,
decrypt title and content, and map a decrypted content equal to exactly the
placeholder back to the empty string; any failure yields `None`. -/
def get_note (svc : EncState) (db : List NoteRow) (nid : String) :
    Option (String × String) :=
  match db.find? (fun r => r.id = nid && !r.is_trashed) with
  | none => none
  | some r =>
    match decrypt svc r.titleEnc none, decrypt svc r.contentEnc none with
    | .ok t, .ok c => some (t, if c = " " then pyStrip c else c)
    | _, _ => none

/-- `NoteController.update_note`: substitute the placeholder when the
content's strip is empty, re-encrypt, and UPDATE the row(s) with the id. -/
def update_note (svc : EncState) (db : List NoteRow) (nid title content : String)
    (sT nT sC nC : List Nat) (now : Nat) : Bool × List NoteRow :=
  let contentStored := if pyStrip content ≠ "" then content else " "
  match encrypt svc (if title ≠ "" then title else "Untitled Note") none sT nT with
  | .error _ => (false, db)
  | .ok tEnc =>
    match encrypt svc contentStored none sC nC with
    | .error _ => (false, db)
    | .ok cEnc =>
      (true, db.map (fun r => if r.id = nid then
        { r with titleEnc := tEnc, contentEnc := cEnc, modified_at := now } else r))

/-- `NoteController.delete_note`: permanent delete removes the row; soft
delete sets `is_trashed = 1` and `modified_at = now`. -/
def delete_note (db : List NoteRow) (nid : String) (permanent : Bool)
    (now : Nat) : Bool × List NoteRow :=
  if permanent then (true, db.filter (fun r => !(r.id = nid)))
  else
    (true, db.map (fun r => if r.id = nid then
      { r with is_trashed := true, modified_at := now } else r))

/-! ### NoteManager.search_notes (src/core/note_manager.py) -/

/-- One row of the NoteManager `notes` table (id, encrypted title, encrypted
content). -/
structure MgrRow where
  id : String
  titleEnc : List Nat
  contentEnc : List Nat
  deriving DecidableEq

/-- Case-insensitive substring match of the query against title or content
(`query_lower in title.lower() or query_lower in content.lower()`). -/
def queryMatches (q title content : String) : Bool :=
  listContainsSub (q.data.map pyToLower) (title.data.map pyToLower) ||
  listContainsSub (q.data.map pyToLower) (content.data.map pyToLower)

/-- `NoteManager.search_notes`: decrypt each row with the cached session key
and keep the matches as `(id, title)` entries; a row whose decryption raises
is skipped (`except Exception: continue`). -/
def search_notes (svc : EncState) (q : String) : List MgrRow → List (String × String)
  | [] => []
  | r :: rest =>
    match decrypt svc r.titleEnc none, decrypt svc r.contentEnc none with
    | .ok title, .ok content =>
      if queryMatches q title content then (r.id, title) :: search_notes svc q rest
      else search_notes svc q rest
    | _, _ => search_notes svc q rest

/-! ### NotebookController (src/controllers/notebook_controller.py) -/

/-- One row of the `notebooks` table, restricted to the columns the claims
touch. -/
structure NotebookRow where
  id : String
  name : String
  is_default : Bool := false
  modified_at : Nat := 0
  deriving DecidableEq

/-- `NotebookController.set_default_notebook`: first loop over all notebooks
clearing `is_default` (one UPDATE per previously-default row), then fetch the
target id and, when found, mark it default; returns False when the id does
not exist. -/
def set_default_notebook (db : List NotebookRow) (nid : String) (now : Nat) :
    Bool × List NotebookRow :=
  let cleared := db.map (fun nb => if nb.is_default then
    { nb with is_default := false, modified_at := now } else nb)
  match cleared.find? (fun nb => nb.id = nid) with
  | some nb =>
    (true, cleared.map (fun r => if r.id = nid then
      { nb with is_default := true, modified_at := now } else r))
  | none => (false, cleared)

/-- The persistent state the notebook controller touches: notebooks and
notes. -/
structure NbDb where
  notebooks : List NotebookRow
  notes : List NoteRow
  deriving DecidableEq

/-- `NotebookController.delete_notebook`: refuse when the fetched notebook is
default; otherwise move the contained notes to `move_notes_to` (when truthy)
or soft-delete them, then DELETE the notebook row. -/
def delete_notebook (db : NbDb) (nid : String) (move_notes_to : Option String) :
    Bool × NbDb :=
  let proceed : Bool × NbDb :=
    let notes' :=
      if strTruthy move_notes_to then
        db.notes.map (fun r => if r.notebook_id = some nid then
          { r with notebook_id := some (move_notes_to.getD "") } else r)
      else
        db.notes.map (fun r => if r.notebook_id = some nid then
          { r with is_trashed := true } else r)
    (true, { notebooks := db.notebooks.filter (fun nb => !(nb.id = nid)),
             notes := notes' })
  match db.notebooks.find? (fun nb => nb.id = nid) with
  | some nb => if nb.is_default then (false, db) else proceed
  | none => proceed

/-- C9: soft-deleting (`permanent=false`) a note that is already trashed
succeeds without error, leaves the note trashed with `modified_at` set to the
call time, and changes nothing else about the row. -/
theorem c9_soft_delete_idempotent (db : List NoteRow) (nid : String) (now : Nat)
    (htr : ∀ r ∈ db, r.id = nid → r.is_trashed = true) :
    (delete_note db nid false now).1 = true ∧
    (∀ r ∈ (delete_note db nid false now).2, r.id = nid →
      r.is_trashed = true ∧ r.modified_at = now) ∧
    (∀ r ∈ db, r.id = nid →
      { r with modified_at := now } ∈ (delete_note db nid false now).2) := by
  have hdel : delete_note db nid false now =
      (true, db.map (fun r => if r.id = nid then
        { r with is_trashed := true, modified_at := now } else r)) := by
    simp [delete_note]
  refine ⟨by rw [hdel], ?_, ?_⟩
  · intro r hr hid
    rw [hdel] at hr
    obtain ⟨r₀, hr₀, rfl⟩ := List.mem_map.mp hr
    by_cases h : r₀.id = nid
    · simp [h]
    · rw [if_neg h] at hid ⊢
      exact absurd hid h
  · intro r hr hid
    rw [hdel]
    refine List.mem_map.mpr ⟨r, hr, ?_⟩
    rw [if_pos hid]
    have := htr r hr hid
    cases r
    simp_all

/-- A concrete already-trashed row used as a witness fixture. -/
def trashedRow : NoteRow :=
  { id := "n1", titleEnc := [], contentEnc := [], is_trashed := true,
    modified_at := 3 }

/-- Witness for C9: a single already-trashed row keeps `is_trashed` and gets
`modified_at = 7`. -/
theorem c9_soft_delete_idempotent_witness :
    (delete_note [trashedRow] "n1" false 7).1 = true ∧
    (∀ r ∈ (delete_note [trashedRow] "n1" false 7).2, r.id = "n1" →
      r.is_trashed = true ∧ r.modified_at = 7) ∧
    (∀ r ∈ [trashedRow], r.id = "n1" →
      { r with modified_at := 7 } ∈ (delete_note [trashedRow] "n1" false 7).2) :=
  c9_soft_delete_idempotent [trashedRow] "n1" 7 (by decide)

/-- C7: `NotebookController.delete_notebook` on an id whose record is the
default notebook returns failure and leaves notebooks and notes completely
unchanged, for either deletion policy. -/
theorem c7_delete_default_refused (db : NbDb) (nid : String)
    (move_notes_to : Option String) (nb : NotebookRow)
    (hfind : db.notebooks.find? (fun r => r.id = nid) = some nb)
    (hdef : nb.is_default = true) :
    delete_notebook db nid move_notes_to = (false, db) := by
  simp only [delete_notebook, hfind]
  rw [if_pos hdef]

/-- The default notebook "a", a witness fixture. -/
def defaultNb : NotebookRow := { id := "a", name := "My Notes", is_default := true }

/-- A note living in notebook "a", a witness fixture. -/
def noteInA : NoteRow :=
  { id := "n1", titleEnc := [], contentEnc := [], notebook_id := some "a" }

/-- Witness for C7: deleting the default notebook "a" is refused. -/
theorem c7_delete_default_refused_witness :
    delete_notebook { notebooks := [defaultNb], notes := [noteInA] } "a" none =
      (false, { notebooks := [defaultNb], notes := [noteInA] }) :=
  c7_delete_default_refused _ "a" none defaultNb (by decide) rfl

/-- Count of id-matches is one under unique ids. -/
theorem countP_id_eq_one (db : List NotebookRow) (nid : String)
    (hnodup : (db.map (fun nb => nb.id)).Nodup)
    (hmem : ∃ nb ∈ db, nb.id = nid) :
    db.countP (fun nb => nb.id = nid) = 1 := by
  induction db with
  | nil => simp at hmem
  | cons r t ih =>
    simp only [List.map_cons, List.nodup_cons] at hnodup
    obtain ⟨hnotin, hnd⟩ := hnodup
    by_cases hr : r.id = nid
    · rw [List.countP_cons_of_pos _ _ (by simp [hr])]
      have hz : t.countP (fun nb => nb.id = nid) = 0 := by
        rw [List.countP_eq_zero]
        intro nb hnb
        simp only [decide_eq_true_eq]
        intro hnbid
        exact hnotin (hr ▸ hnbid ▸ List.mem_map.mpr ⟨nb, hnb, rfl⟩)
      rw [hz]
    · rw [List.countP_cons_of_neg _ _ (by simp [hr])]
      apply ih hnd
      rcases hmem with ⟨nb, hnb, hid⟩
      rcases List.mem_cons.mp hnb with rfl | hmem'
      · exact absurd hid hr
      · exact ⟨nb, hmem', hid⟩

/-- Every notebook is non-default after the clearing loop of
`set_default_notebook`. -/
theorem cleared_all_non_default (db : List NotebookRow) (now : Nat) :
    ∀ r ∈ db.map (fun nb => if nb.is_default then
      { nb with is_default := false, modified_at := now } else nb),
      r.is_default = false := by
  intro r hr
  obtain ⟨nb, _, rfl⟩ := List.mem_map.mp hr
  by_cases h : nb.is_default
  · rw [if_pos h]
  · rw [if_neg h]
    exact Bool.not_eq_true _ ▸ (by simpa using h)

/-- The clearing loop preserves each notebook's id. -/
theorem cleared_map_id (db : List NotebookRow) (now : Nat) :
    (db.map (fun nb => if nb.is_default then
      { nb with is_default := false, modified_at := now } else nb)).map
        (fun nb => nb.id) = db.map (fun nb => nb.id) := by
  rw [List.map_map]
  apply List.map_congr_left
  intro nb _
  by_cases h : nb.is_default
  · simp [h]
  · simp [h]

/-- C6 counterexample: the claim promises exactly one default notebook after
ANY `set_default_notebook` call, existing id or not; but calling it with the
non-existent id "zzz" on a store whose sole notebook "a" is default first
clears "a", then finds no target, leaving ZERO default notebooks (and the two
updates are separate `update_notebook` calls, not one atomic step). -/
theorem c6_counterexample :
    ((set_default_notebook [defaultNb] "zzz" 1).2.filter
      (fun nb => nb.is_default)).length = 0 ∧
    (set_default_notebook [defaultNb] "zzz" 1).1 = false := by
  constructor <;> rfl

/-- C6 (amended): under unique notebook ids, `set_default_notebook` with an
EXISTING id leaves exactly one notebook default, namely that id (clearing the
previous default); with a non-existent id it returns failure and clears every
default, leaving none. -/
theorem c6_set_default_notebook (db : List NotebookRow) (nid : String) (now : Nat)
    (hnodup : (db.map (fun nb => nb.id)).Nodup) :
    ((∃ nb ∈ db, nb.id = nid) →
      ((set_default_notebook db nid now).2.filter
        (fun nb => nb.is_default)).length = 1 ∧
      (∀ nb ∈ (set_default_notebook db nid now).2,
        nb.is_default = true → nb.id = nid)) ∧
    ((∀ nb ∈ db, nb.id ≠ nid) →
      (set_default_notebook db nid now).1 = false ∧
      ((set_default_notebook db nid now).2.filter
        (fun nb => nb.is_default)).length = 0) := by
  set c : NotebookRow → NotebookRow := fun nb => if nb.is_default then
    { nb with is_default := false, modified_at := now } else nb with hc
  have hallfalse := cleared_all_non_default db now
  have hids := cleared_map_id db now
  rw [← hc] at hallfalse hids
  constructor
  · intro hmem
    have hmem' : ∃ nb ∈ db.map c, nb.id = nid := by
      rcases hmem with ⟨nb, hnb, hid⟩
      refine ⟨c nb, List.mem_map.mpr ⟨nb, hnb, rfl⟩, ?_⟩
      rw [hc]
      by_cases h : nb.is_default <;> simp [h, hid]
    have hsome : ((db.map c).find? (fun nb => nb.id = nid)).isSome := by
      rw [List.find?_isSome]
      rcases hmem' with ⟨nb, hnb, hid⟩
      exact ⟨nb, hnb, by simp [hid]⟩
    rcases hfind : (db.map c).find? (fun nb => nb.id = nid) with _ | nb₀
    · rw [hfind] at hsome
      simp at hsome
    · have hnb₀ : nb₀.id = nid := by
        have := List.find?_some hfind
        simpa using this
      have hres : set_default_notebook db nid now =
          (true, (db.map c).map (fun r => if r.id = nid then
            { nb₀ with is_default := true, modified_at := now } else r)) := by
        simp only [set_default_notebook, ← hc, hfind]
      rw [hres]
      constructor
      · rw [← List.countP_eq_length_filter, List.countP_map]
        have hcong : ((db.map c).countP
            ((fun nb => nb.is_default) ∘ (fun r => if r.id = nid then
              { nb₀ with is_default := true, modified_at := now } else r))) =
            (db.map c).countP (fun nb => nb.id = nid) := by
          apply List.countP_congr
          intro r hr
          by_cases h : r.id = nid <;>
            simp [Function.comp, h, hallfalse r hr]
        rw [hcong]
        have hnodup' : ((db.map c).map (fun nb => nb.id)).Nodup := by
          rw [hids]
          exact hnodup
        exact countP_id_eq_one (db.map c) nid hnodup' hmem'
      · intro nb hnb hdef
        obtain ⟨r, hr, rfl⟩ := List.mem_map.mp hnb
        by_cases h : r.id = nid
        · rw [if_pos h]
          exact hnb₀
        · rw [if_neg h] at hdef ⊢
          exact absurd hdef (by simp [hallfalse r hr])
  · intro habs
    have hfind : (db.map c).find? (fun nb => nb.id = nid) = none := by
      rw [List.find?_eq_none]
      intro nb hnb
      obtain ⟨r, hr, rfl⟩ := List.mem_map.mp hnb
      have : (c r).id = r.id := by
        rw [hc]
        by_cases h : r.is_default <;> simp [h]
      simp [this, habs r hr]
    have hres : set_default_notebook db nid now = (false, db.map c) := by
      simp only [set_default_notebook, ← hc, hfind]
    rw [hres]
    refine ⟨rfl, ?_⟩
    rw [← List.countP_eq_length_filter, List.countP_eq_zero]
    intro nb hnb
    simp [hallfalse nb hnb]

/-- Witness for C6 (amended): promoting "b" over the current default "a". -/
theorem c6_set_default_notebook_witness :
    ((set_default_notebook [defaultNb, { id := "b", name := "Work" }] "b" 1).2.filter
      (fun nb => nb.is_default)).length = 1 ∧
    (set_default_notebook [defaultNb] "zzz" 1).1 = false ∧
    ((set_default_notebook [defaultNb] "zzz" 1).2.filter
      (fun nb => nb.is_default)).length = 0 :=
  ⟨((c6_set_default_notebook [defaultNb, { id := "b", name := "Work" }] "b" 1
      (by decide)).1 (by decide)).1,
   ((c6_set_default_notebook [defaultNb] "zzz" 1 (by decide)).2 (by decide)).1,
   ((c6_set_default_notebook [defaultNb] "zzz" 1 (by decide)).2 (by decide)).2⟩

/-! ### Claims C3 and C5 fixtures: a session with a cached key, and concrete
sealed rows -/

/-- A cached session key derived from password "p!" and an all-zero salt. -/
def fixKey : List Nat := argon2idKey "p!" (List.replicate 16 0)

/-- An `EncryptionService` holding `fixKey` and its salt. -/
def svcFix : EncState :=
  { cachedKey := some fixKey, cachedSalt := some (List.replicate 16 0) }

/-- Seal a plaintext under the fixture session (all-zero nonce). -/
def sealFix (pt : String) : List Nat :=
  List.replicate 16 0 ++ List.replicate 12 0 ++
    aesgcmEncrypt fixKey (List.replicate 12 0) (strBytes pt)

/-- A NoteManager row that decrypts fine. -/
def goodRowEnc : MgrRow :=
  { id := "good", titleEnc := sealFix "T", contentEnc := sealFix "milk" }

/-- A NoteManager row with a corrupted (truncated) envelope. -/
def badRowEnc : MgrRow := { id := "bad", titleEnc := [1, 2, 3], contentEnc := [] }

/-- C5 counterexample: the claim requires a note whose envelope fails to
decrypt to surface its failure to the caller; but `NoteManager.search_notes`
returns exactly the same result whether the undecryptable note is present or
absent — the failure is silently swallowed (`except Exception: continue`) and
the note is simply omitted. -/
theorem c5_counterexample :
    search_notes svcFix "t" [goodRowEnc, badRowEnc] =
      search_notes svcFix "t" [goodRowEnc] ∧
    search_notes svcFix "t" [goodRowEnc, badRowEnc] = [("good", "T")] := by
  constructor <;> rfl

/-- C5 (amended): a note whose envelope fails to decrypt is silently skipped
by `NoteManager.search_notes` — the result is identical to searching the
store without that note, with no per-item error — while the remaining notes
are still searched (the failure does not abort the operation). -/
theorem c5_search_silently_skips (svc : EncState) (q : String)
    (pre post : List MgrRow) (bad : MgrRow)
    (hbad : (∃ e, decrypt svc bad.titleEnc none = .error e) ∨
            (∃ e, decrypt svc bad.contentEnc none = .error e)) :
    search_notes svc q (pre ++ bad :: post) = search_notes svc q (pre ++ post) := by
  induction pre with
  | nil =>
    simp only [List.nil_append]
    rcases hbad with ⟨e, he⟩ | ⟨e, he⟩
    · simp [search_notes, he]
    · rcases h1 : decrypt svc bad.titleEnc none with e1 | t1 <;>
        simp [search_notes, he, h1]
  | cons r t ih =>
    simp only [List.cons_append, search_notes, List.append_eq, ih]

/-- Witness for C5 (amended): the corrupted fixture row is skipped. -/
theorem c5_search_silently_skips_witness :
    search_notes svcFix "t" ([goodRowEnc] ++ badRowEnc :: []) =
      search_notes svcFix "t" ([goodRowEnc] ++ []) :=
  c5_search_silently_skips svcFix "t" [goodRowEnc] [] badRowEnc
    (Or.inl ⟨.dataTooShort, rfl⟩)

/-- Whole round trip of one field under the cached session key. -/
theorem decrypt_cached_roundtrip (svc : EncState) (k cs nonce : List Nat)
    (pt : String) (hk : svc.cachedKey = some k) (hk0 : k ≠ [])
    (hcs : svc.cachedSalt = some cs) (hcs16 : cs.length = SALT_SIZE)
    (hn : nonce.length = NONCE_SIZE) :
    decrypt svc (cs ++ nonce ++ aesgcmEncrypt k nonce (strBytes pt)) none =
      .ok pt := by
  rw [decrypt_cached_sealed svc k cs nonce _ hk hk0 hcs hcs16 hn
    (by simp [aesgcmEncrypt, gcmTagBytes_length])]
  simp [aesgcmDecrypt_aesgcmEncrypt, decodeBytes_strBytes]

theorem pyStrip_space : pyStrip " " = "" := rfl

theorem pyStrip_empty : pyStrip "" = "" := rfl

theorem ne_space_of_strip_ne (content : String) (h : pyStrip content ≠ "") :
    content ≠ " " := by
  intro he
  rw [he, pyStrip_space] at h
  exact h rfl

theorem find?_congr_mem {α : Type} (p q : α → Bool) :
    ∀ (l : List α), (∀ a ∈ l, p a = q a) → l.find? p = l.find? q
  | [], _ => rfl
  | a :: t, h => by
    rw [List.find?_cons, List.find?_cons, h a (List.mem_cons_self a t)]
    cases hq : q a
    · exact find?_congr_mem p q t (fun x hx => h x (List.mem_cons_of_mem a hx))
    · rfl

/-- The read-path sentinel unwrap recovers the content written on the create
path, for contents that are empty or have a non-whitespace character. -/
theorem create_transform_roundtrip (content : String)
    (hgood : content = "" ∨ pyStrip content ≠ "") :
    (if (if content ≠ "" then content else " ") = " "
      then pyStrip (if content ≠ "" then content else " ")
      else (if content ≠ "" then content else " ")) = content := by
  rcases hgood with rfl | h
  · simp [pyStrip_space]
  · have hne : content ≠ "" := by
      intro he
      rw [he, pyStrip_empty] at h
      exact h rfl
    rw [if_pos hne, if_neg (ne_space_of_strip_ne content h)]

/-- The read-path sentinel unwrap recovers the content written on the update
path, for contents that are empty or have a non-whitespace character. -/
theorem update_transform_roundtrip (content : String)
    (hgood : content = "" ∨ pyStrip content ≠ "") :
    (if (if pyStrip content ≠ "" then content else " ") = " "
      then pyStrip (if pyStrip content ≠ "" then content else " ")
      else (if pyStrip content ≠ "" then content else " ")) = content := by
  rcases hgood with rfl | h
  · simp [pyStrip_empty, pyStrip_space]
  · rw [if_pos h, if_neg (ne_space_of_strip_ne content h)]

/-- C3 counterexample: the claim promises write-then-read identity for EVERY
content string, but writing the single-space content " " via `create_note`
stores the placeholder envelope unchanged and `get_note` maps it back to the
empty string: " " reads back as "". -/
theorem c3_counterexample :
    ((create_note svcFix [] "n1" "T" " " (List.replicate 16 0)
        (List.replicate 12 0) (List.replicate 16 0)
        (List.replicate 12 0) 0).toOption.bind
      (fun db => get_note svcFix db "n1")) = some ("T", "") ∧
    (" " : String) ≠ "" := by
  exact ⟨rfl, by decide⟩

/-- C3 (amended): both write paths replace an empty content by the
single-space placeholder before encryption (update also replaces
whitespace-only contents), and the read path maps a decrypted result equal to
exactly the placeholder back to the empty string; consequently write-then-read
returns the original content for every content string that is empty or
contains a non-whitespace character — but a nonempty whitespace-only content
(" " on the create path) reads back as the empty string. -/
theorem c3_empty_content_codec (svc : EncState) (k cs : List Nat)
    (hk : svc.cachedKey = some k) (hk0 : k ≠ [])
    (hcs : svc.cachedSalt = some cs) (hcs16 : cs.length = SALT_SIZE)
    (db : List NoteRow) (nid title content : String)
    (sT nT sC nC : List Nat) (now : Nat)
    (hnT : nT.length = NONCE_SIZE) (hnC : nC.length = NONCE_SIZE)
    (hfresh : ∀ r ∈ db, r.id ≠ nid)
    (hgood : content = "" ∨ pyStrip content ≠ "") :
    (∀ db', create_note svc db nid title content sT nT sC nC now = .ok db' →
      get_note svc db' nid =
        some ((if title ≠ "" then title else "Untitled Note"), content)) ∧
    ((update_note svc db nid title content sT nT sC nC now).1 = true ∧
      (∀ r₀, db.find? (fun r => r.id = nid && !r.is_trashed) = some r₀ →
        get_note svc (update_note svc db nid title content sT nT sC nC now).2 nid =
          some ((if title ≠ "" then title else "Untitled Note"), content))) := by
  have hcs0 : cs ≠ [] := by
    intro h
    rw [h] at hcs16
    simp [SALT_SIZE] at hcs16
  have htitle : (if title ≠ "" then title else "Untitled Note") ≠ "" := by
    by_cases h : title = "" <;> simp [h]
  have hcreateC : (if content ≠ "" then content else " ") ≠ "" := by
    by_cases h : content = "" <;> simp [h]
  have hupdateC : (if pyStrip content ≠ "" then content else " ") ≠ "" := by
    by_cases h : pyStrip content ≠ ""
    · rw [if_pos h]
      intro he
      rw [he, pyStrip_empty] at h
      exact h rfl
    · rw [if_neg h]
      simp
  have henct := encrypt_cached_eq svc (if title ≠ "" then title else "Untitled Note")
    k cs sT nT htitle hk hk0 hcs hcs0
  have hdect := decrypt_cached_roundtrip svc k cs nT
    (if title ≠ "" then title else "Untitled Note") hk hk0 hcs hcs16 hnT
  constructor
  · intro db' hcr
    have hencc := encrypt_cached_eq svc (if content ≠ "" then content else " ")
      k cs sC nC hcreateC hk hk0 hcs hcs0
    have hdecc := decrypt_cached_roundtrip svc k cs nC
      (if content ≠ "" then content else " ") hk hk0 hcs hcs16 hnC
    simp only [create_note, henct, hencc] at hcr
    injection hcr with hdb'
    subst hdb'
    simp only [get_note, List.find?_append]
    have hnone : db.find? (fun r => r.id = nid && !r.is_trashed) = none := by
      rw [List.find?_eq_none]
      intro r hr
      simp [hfresh r hr]
    rw [hnone, Option.none_or]
    rw [List.find?_cons_of_pos _ (by simp)]
    simp only [hdect, hdecc]
    rw [create_transform_roundtrip content hgood]
  · have hencc := encrypt_cached_eq svc (if pyStrip content ≠ "" then content else " ")
      k cs sC nC hupdateC hk hk0 hcs hcs0
    have hdecc := decrypt_cached_roundtrip svc k cs nC
      (if pyStrip content ≠ "" then content else " ") hk hk0 hcs hcs16 hnC
    have hupd : update_note svc db nid title content sT nT sC nC now =
        (true, db.map (fun r => if r.id = nid then
          { r with
            titleEnc := cs ++ nT ++ aesgcmEncrypt k nT
              (strBytes (if title ≠ "" then title else "Untitled Note")),
            contentEnc := cs ++ nC ++ aesgcmEncrypt k nC
              (strBytes (if pyStrip content ≠ "" then content else " ")),
            modified_at := now } else r)) := by
      simp only [update_note, henct, hencc]
    refine ⟨by rw [hupd], ?_⟩
    intro r₀ hfind
    rw [hupd]
    simp only [get_note, List.find?_map]
    rw [find?_congr_mem _ (fun r => r.id = nid && !r.is_trashed) db
      (fun r _ => by by_cases h : r.id = nid <;> simp [Function.comp, h])]
    rw [hfind]
    have hr₀ : r₀.id = nid := by
      have := List.find?_some hfind
      simp at this
      exact this.1
    simp only [Option.map_some']
    rw [if_pos hr₀]
    simp only [hdect, hdecc]
    rw [update_transform_roundtrip content hgood]

/-- The row `create_note` produces for title "T" and empty content under the
fixture session. -/
def c3Row : NoteRow :=
  { id := "n1", titleEnc := sealFix "T", contentEnc := sealFix " ",
    is_trashed := false, modified_at := 0 }

/-- Witness for C3 (amended): an empty content is stored as the placeholder
and read back as "", and the update path succeeds. -/
theorem c3_empty_content_codec_witness :
    get_note svcFix [c3Row] "n1" = some ("T", "") ∧
    (update_note svcFix [] "n1" "T" "" (List.replicate 16 0)
      (List.replicate 12 0) (List.replicate 16 0) (List.replicate 12 0) 1).1 =
      true := by
  have h := c3_empty_content_codec svcFix fixKey (List.replicate 16 0) rfl
    (by simp [fixKey, argon2idKey]) rfl (by decide) [] "n1" "T" ""
    (List.replicate 16 0) (List.replicate 12 0) (List.replicate 16 0)
    (List.replicate 12 0) 0 (by decide) (by decide) (by simp) (Or.inl rfl)
  have h2 := c3_empty_content_codec svcFix fixKey (List.replicate 16 0) rfl
    (by simp [fixKey, argon2idKey]) rfl (by decide) [] "n1" "T" ""
    (List.replicate 16 0) (List.replicate 12 0) (List.replicate 16 0)
    (List.replicate 12 0) 1 (by decide) (by decide) (by simp) (Or.inl rfl)
  exact ⟨h.1 [c3Row] rfl, h2.2.1⟩

end TMapp
